import Mathlib

/-!
Shallow embedding of `src/src/base/scoped_ptr.h` (repository shafiahmed/xforest).

The header defines two class templates, `scoped_ptr<C>` and `scoped_array<C>`,
each holding a single raw pointer field and deallocating it with `delete`
(resp. `delete[]`) on destruction or replacement.

Modelling choices:
* A raw pointer value is `Ptr := Option Ref` with `Ref := Nat`: `none` is
  `nullptr`, and `some r` is the identity of an allocated referent.  Pointer
  comparison in the source (`p != ptr_`, `ptr_ == p`) is identity comparison,
  which is exactly equality on `Ptr`.
* Each operation of the source is a pure Lean function on the wrapper state;
  operations whose bodies may invoke a deallocation primitive additionally
  return the list of deallocation-primitive invocations they perform, as
  values of `Dealloc`.  `delete p` and `delete[] p` on a null pointer are
  no-ops in C++, so they contribute no `Dealloc` event.
* `assert` from `<assert.h>` is compiled away when `NDEBUG` is defined, so the
  accessors take the `NDEBUG` build flag as a `Bool` argument and follow the
  C semantics of `assert` for both values of the flag.
* For the temporal claim about whole lifetimes, a small trace semantics runs
  an arbitrary sequence of `reset` / `release` / `swap` operations over a pair
  of wrappers (swap needs two) and collects every deallocation event,
  including the final destructor events.
-/

set_option autoImplicit false

/-- Identity of an allocated referent. -/
abbrev Ref := Nat

/-- A C raw pointer value: `none` is `nullptr`, `some r` points to referent `r`. -/
abbrev Ptr := Option Ref

/-- One invocation of a deallocation primitive: `delete r` or `delete[] r`
on a non-null pointer to referent `r`. -/
inductive Dealloc where
  | deleteOne : Ref → Dealloc
  | deleteArray : Ref → Dealloc
  deriving DecidableEq, Repr

/-- Outcome of a pointer access (`operator*` / `operator->`):
either the referent is reached, or an `assert` fired, or execution proceeded
into undefined behavior (null dereference with the check elided). -/
inductive AccessOutcome where
  | ok : Ref → AccessOutcome
  | assertionFailure : AccessOutcome
  | undefined : AccessOutcome
  deriving DecidableEq, Repr

/-- Outcome of `scoped_array::operator[]`: `ok r i` is a raw element access at
offset `i` into array referent `r`; otherwise an `assert` fired or execution
proceeded into undefined behavior. -/
inductive IndexOutcome where
  | ok : Ref → Int → IndexOutcome
  | assertionFailure : IndexOutcome
  | undefined : IndexOutcome
  deriving DecidableEq, Repr

/-- `template <class C> class scoped_ptr { ... C* ptr_; }` -/
structure scoped_ptr where
  ptr_ : Ptr
  deriving DecidableEq, Repr

namespace scoped_ptr

/-- `explicit scoped_ptr(C* p = nullptr) : ptr_(p) { }` -/
def construct (p : Ptr) : scoped_ptr := ⟨p⟩

/-- `C* get() const { return ptr_; }` -/
def get (s : scoped_ptr) : Ptr := s.ptr_

/-- `~scoped_ptr() { delete ptr_; }` — the deallocations the destructor
performs (`delete` on `nullptr` is a no-op). -/
def destruct (s : scoped_ptr) : List Dealloc :=
  match s.ptr_ with
  | none => []
  | some r => [Dealloc.deleteOne r]

/-- `void reset(C* p = nullptr) { if (p != ptr_) { delete ptr_; ptr_ = p; } }` -/
def reset (s : scoped_ptr) (p : Ptr) : scoped_ptr × List Dealloc :=
  if p ≠ s.ptr_ then (⟨p⟩, s.destruct) else (s, [])

/-- `C& operator*() const { assert(ptr_ != nullptr); return *ptr_; }`;
`ndebug` is whether `NDEBUG` was defined (eliding the `assert`). -/
def opStar (ndebug : Bool) (s : scoped_ptr) : AccessOutcome :=
  if ¬ ndebug ∧ s.ptr_ = none then AccessOutcome.assertionFailure
  else
    match s.ptr_ with
    | some r => AccessOutcome.ok r
    | none => AccessOutcome.undefined

/-- `C* operator->() const { assert(ptr_ != nullptr); return ptr_; }`;
`ndebug` is whether `NDEBUG` was defined (eliding the `assert`). -/
def opArrow (ndebug : Bool) (s : scoped_ptr) : AccessOutcome :=
  if ¬ ndebug ∧ s.ptr_ = none then AccessOutcome.assertionFailure
  else
    match s.ptr_ with
    | some r => AccessOutcome.ok r
    | none => AccessOutcome.undefined

/-- `bool operator==(C* p) const { return ptr_ == p; }` -/
def opEq (s : scoped_ptr) (p : Ptr) : Bool := s.ptr_ = p

/-- `bool operator!=(C* p) const { return ptr_ != p; }` -/
def opNe (s : scoped_ptr) (p : Ptr) : Bool := s.ptr_ ≠ p

/-- `void swap(scoped_ptr& p2) { C* tmp = ptr_; ptr_ = p2.ptr_; p2.ptr_ = tmp; }`
— returns the two wrappers after `this.swap(p2)`. -/
def swap (s p2 : scoped_ptr) : scoped_ptr × scoped_ptr :=
  (⟨p2.ptr_⟩, ⟨s.ptr_⟩)

/-- `C* release() { C* retVal = ptr_; ptr_ = nullptr; return retVal; }` -/
def release (s : scoped_ptr) : Ptr × scoped_ptr :=
  (s.ptr_, ⟨none⟩)

end scoped_ptr

/-- `template <class C> class scoped_array { ... C* array_; }` -/
structure scoped_array where
  array_ : Ptr
  deriving DecidableEq, Repr

namespace scoped_array

/-- `explicit scoped_array(C* p = nullptr) : array_(p) { }` -/
def construct (p : Ptr) : scoped_array := ⟨p⟩

/-- `C* get() const { return array_; }` -/
def get (s : scoped_array) : Ptr := s.array_

/-- `~scoped_array() { delete[] array_; }` — the deallocations the destructor
performs (`delete[]` on `nullptr` is a no-op). -/
def destruct (s : scoped_array) : List Dealloc :=
  match s.array_ with
  | none => []
  | some r => [Dealloc.deleteArray r]

/-- `void reset(C* p = nullptr) { if (p != array_) { delete[] array_; array_ = p; } }` -/
def reset (s : scoped_array) (p : Ptr) : scoped_array × List Dealloc :=
  if p ≠ s.array_ then (⟨p⟩, s.destruct) else (s, [])

/-- `C& operator[](std::ptrdiff_t i) const { assert(i >= 0);
assert(array_ != nullptr); return array_[i]; }`; `ndebug` is whether `NDEBUG`
was defined (eliding both `assert`s).  A negative offset into the raw array is
out of bounds (the array begins at element 0), hence undefined behavior when
the check is elided. -/
def opIndex (ndebug : Bool) (s : scoped_array) (i : Int) : IndexOutcome :=
  if ¬ ndebug ∧ ¬ (0 ≤ i) then IndexOutcome.assertionFailure
  else if ¬ ndebug ∧ s.array_ = none then IndexOutcome.assertionFailure
  else
    match s.array_ with
    | none => IndexOutcome.undefined
    | some r => if i < 0 then IndexOutcome.undefined else IndexOutcome.ok r i

/-- `bool operator==(C* p) const { return array_ == p; }` -/
def opEq (s : scoped_array) (p : Ptr) : Bool := s.array_ = p

/-- `bool operator!=(C* p) const { return array_ != p; }` -/
def opNe (s : scoped_array) (p : Ptr) : Bool := s.array_ ≠ p

/-- `void swap(scoped_array& p2) { C* tmp = array_; array_ = p2.array_;
p2.array_ = tmp; }` — returns the two wrappers after `this.swap(p2)`. -/
def swap (s p2 : scoped_array) : scoped_array × scoped_array :=
  (⟨p2.array_⟩, ⟨s.array_⟩)

/-- `C* release() { C* retVal = array_; array_ = nullptr; return retVal; }` -/
def release (s : scoped_array) : Ptr × scoped_array :=
  (s.array_, ⟨none⟩)

end scoped_array

/-- Number of `delete r` (single-object deallocation) invocations for referent
`r` in an event list. -/
def countOne (r : Ref) : List Dealloc → Nat
  | [] => 0
  | Dealloc.deleteOne r1 :: es => (if r1 = r then 1 else 0) + countOne r es
  | Dealloc.deleteArray _ :: es => countOne r es

/-- Number of `delete[] r` (array deallocation) invocations for referent `r`
in an event list. -/
def countArr (r : Ref) : List Dealloc → Nat
  | [] => 0
  | Dealloc.deleteArray r1 :: es => (if r1 = r then 1 else 0) + countArr r es
  | Dealloc.deleteOne _ :: es => countArr r es

theorem countOne_append (r : Ref) (a b : List Dealloc) :
    countOne r (a ++ b) = countOne r a + countOne r b := by
  induction a with
  | nil => simp [countOne]
  | cons e es ih =>
    cases e <;> simp [countOne, ih, Nat.add_assoc]

theorem countArr_append (r : Ref) (a b : List Dealloc) :
    countArr r (a ++ b) = countArr r a + countArr r b := by
  induction a with
  | nil => simp [countArr]
  | cons e es ih =>
    cases e <;> simp [countArr, ih, Nat.add_assoc]

/-! ### Trace semantics for whole lifetimes of `scoped_ptr`

A lifetime of operations over a pair of wrappers (`swap` involves two).
Construction is the arbitrary initial state; destruction of both wrappers is
appended at the end of the run. -/

/-- One public mutating operation on a pair of `scoped_ptr`s. -/
inductive PtrOp where
  | reset1 : Ptr → PtrOp
  | reset2 : Ptr → PtrOp
  | release1 : PtrOp
  | release2 : PtrOp
  | swap12 : PtrOp
  deriving DecidableEq, Repr

/-- A pair of `scoped_ptr` wrappers. -/
structure PtrPair where
  w1 : scoped_ptr
  w2 : scoped_ptr
  deriving DecidableEq, Repr

/-- Execute one operation on a pair of `scoped_ptr`s, collecting the
deallocation-primitive invocations it performs (`swap` and `release` bodies
contain no `delete`). -/
def stepPtr (s : PtrPair) : PtrOp → PtrPair × List Dealloc
  | PtrOp.reset1 p => let re := s.w1.reset p; (⟨re.1, s.w2⟩, re.2)
  | PtrOp.reset2 p => let re := s.w2.reset p; (⟨s.w1, re.1⟩, re.2)
  | PtrOp.release1 => (⟨(s.w1.release).2, s.w2⟩, [])
  | PtrOp.release2 => (⟨s.w1, (s.w2.release).2⟩, [])
  | PtrOp.swap12 => let sw := scoped_ptr.swap s.w1 s.w2; (⟨sw.1, sw.2⟩, [])

/-- Execute a sequence of operations, collecting all deallocation events. -/
def runPtr (s : PtrPair) : List PtrOp → PtrPair × List Dealloc
  | [] => (s, [])
  | op :: ops =>
    let st := stepPtr s op
    let rest := runPtr st.1 ops
    (rest.1, st.2 ++ rest.2)

/-- How many times referent `r` is adopted by one operation: only a `reset`
whose argument points to `r` and differs from the wrapper's current pointer
adopts a reference. -/
def adoptOpPtr (r : Ref) (s : PtrPair) : PtrOp → Nat
  | PtrOp.reset1 p => if p = some r ∧ p ≠ s.w1.ptr_ then 1 else 0
  | PtrOp.reset2 p => if p = some r ∧ p ≠ s.w2.ptr_ then 1 else 0
  | _ => 0

/-- How many times referent `r` is adopted over a run (construction adoptions
are counted separately as `ownPtr` of the initial state). -/
def adoptPtr (r : Ref) (s : PtrPair) : List PtrOp → Nat
  | [] => 0
  | op :: ops => adoptOpPtr r s op + adoptPtr r (stepPtr s op).1 ops

/-- How many of the two wrappers currently hold referent `r`. -/
def ownPtr (r : Ref) (s : PtrPair) : Nat :=
  (if s.w1.ptr_ = some r then 1 else 0) + (if s.w2.ptr_ = some r then 1 else 0)

theorem stepPtr_count (r : Ref) (s : PtrPair) (op : PtrOp) :
    countOne r (stepPtr s op).2 + ownPtr r (stepPtr s op).1
      ≤ ownPtr r s + adoptOpPtr r s op := by
  obtain ⟨⟨p1⟩, ⟨p2⟩⟩ := s
  cases op with
  | reset1 p =>
    simp only [stepPtr, adoptOpPtr, ownPtr, scoped_ptr.reset, scoped_ptr.destruct]
    by_cases h : p = p1
    · simp [h, countOne]
    · simp only [h, if_neg, ne_eq, not_false_iff, if_pos]
      cases p1 <;> cases p <;> simp_all [countOne] <;> split_ifs <;> simp_all
  | reset2 p =>
    simp only [stepPtr, adoptOpPtr, ownPtr, scoped_ptr.reset, scoped_ptr.destruct]
    by_cases h : p = p2
    · simp [h, countOne]
    · simp only [h, if_neg, ne_eq, not_false_iff, if_pos]
      cases p2 <;> cases p <;> simp_all [countOne] <;> split_ifs <;> simp_all
  | release1 =>
    simp [stepPtr, adoptOpPtr, ownPtr, scoped_ptr.release, countOne]
  | release2 =>
    simp [stepPtr, adoptOpPtr, ownPtr, scoped_ptr.release, countOne]
  | swap12 =>
    simp [stepPtr, adoptOpPtr, ownPtr, scoped_ptr.swap, countOne]
    omega

theorem runPtr_count (r : Ref) (ops : List PtrOp) (s : PtrPair) :
    countOne r (runPtr s ops).2 + ownPtr r (runPtr s ops).1
      ≤ ownPtr r s + adoptPtr r s ops := by
  induction ops generalizing s with
  | nil => simp [runPtr, countOne, adoptPtr]
  | cons op ops ih =>
    have hstep := stepPtr_count r s op
    have hrest := ih (stepPtr s op).1
    simp only [runPtr, adoptPtr, countOne_append]
    omega

/-! ### Trace semantics for whole lifetimes of `scoped_array` (mirror) -/

/-- One public mutating operation on a pair of `scoped_array`s. -/
inductive ArrOp where
  | reset1 : Ptr → ArrOp
  | reset2 : Ptr → ArrOp
  | release1 : ArrOp
  | release2 : ArrOp
  | swap12 : ArrOp
  deriving DecidableEq, Repr

/-- A pair of `scoped_array` wrappers. -/
structure ArrPair where
  w1 : scoped_array
  w2 : scoped_array
  deriving DecidableEq, Repr

/-- Execute one operation on a pair of `scoped_array`s, collecting the
deallocation-primitive invocations it performs. -/
def stepArr (s : ArrPair) : ArrOp → ArrPair × List Dealloc
  | ArrOp.reset1 p => let re := s.w1.reset p; (⟨re.1, s.w2⟩, re.2)
  | ArrOp.reset2 p => let re := s.w2.reset p; (⟨s.w1, re.1⟩, re.2)
  | ArrOp.release1 => (⟨(s.w1.release).2, s.w2⟩, [])
  | ArrOp.release2 => (⟨s.w1, (s.w2.release).2⟩, [])
  | ArrOp.swap12 => let sw := scoped_array.swap s.w1 s.w2; (⟨sw.1, sw.2⟩, [])

/-- Execute a sequence of operations, collecting all deallocation events. -/
def runArr (s : ArrPair) : List ArrOp → ArrPair × List Dealloc
  | [] => (s, [])
  | op :: ops =>
    let st := stepArr s op
    let rest := runArr st.1 ops
    (rest.1, st.2 ++ rest.2)

/-- How many times referent `r` is adopted by one operation. -/
def adoptOpArr (r : Ref) (s : ArrPair) : ArrOp → Nat
  | ArrOp.reset1 p => if p = some r ∧ p ≠ s.w1.array_ then 1 else 0
  | ArrOp.reset2 p => if p = some r ∧ p ≠ s.w2.array_ then 1 else 0
  | _ => 0

/-- How many times referent `r` is adopted over a run. -/
def adoptArr (r : Ref) (s : ArrPair) : List ArrOp → Nat
  | [] => 0
  | op :: ops => adoptOpArr r s op + adoptArr r (stepArr s op).1 ops

/-- How many of the two wrappers currently hold referent `r`. -/
def ownArr (r : Ref) (s : ArrPair) : Nat :=
  (if s.w1.array_ = some r then 1 else 0) + (if s.w2.array_ = some r then 1 else 0)

theorem stepArr_count (r : Ref) (s : ArrPair) (op : ArrOp) :
    countArr r (stepArr s op).2 + ownArr r (stepArr s op).1
      ≤ ownArr r s + adoptOpArr r s op := by
  obtain ⟨⟨p1⟩, ⟨p2⟩⟩ := s
  cases op with
  | reset1 p =>
    simp only [stepArr, adoptOpArr, ownArr, scoped_array.reset, scoped_array.destruct]
    by_cases h : p = p1
    · simp [h, countArr]
    · simp only [h, if_neg, ne_eq, not_false_iff, if_pos]
      cases p1 <;> cases p <;> simp_all [countArr] <;> split_ifs <;> simp_all
  | reset2 p =>
    simp only [stepArr, adoptOpArr, ownArr, scoped_array.reset, scoped_array.destruct]
    by_cases h : p = p2
    · simp [h, countArr]
    · simp only [h, if_neg, ne_eq, not_false_iff, if_pos]
      cases p2 <;> cases p <;> simp_all [countArr] <;> split_ifs <;> simp_all
  | release1 =>
    simp [stepArr, adoptOpArr, ownArr, scoped_array.release, countArr]
  | release2 =>
    simp [stepArr, adoptOpArr, ownArr, scoped_array.release, countArr]
  | swap12 =>
    simp [stepArr, adoptOpArr, ownArr, scoped_array.swap, countArr]
    omega

theorem runArr_count (r : Ref) (ops : List ArrOp) (s : ArrPair) :
    countArr r (runArr s ops).2 + ownArr r (runArr s ops).1
      ≤ ownArr r s + adoptArr r s ops := by
  induction ops generalizing s with
  | nil => simp [runArr, countArr, adoptArr]
  | cons op ops ih =>
    have hstep := stepArr_count r s op
    have hrest := ih (stepArr s op).1
    simp only [runArr, adoptArr, countArr_append]
    omega

theorem countOne_destruct (r : Ref) (w : scoped_ptr) :
    countOne r w.destruct = if w.ptr_ = some r then 1 else 0 := by
  obtain ⟨p⟩ := w
  cases p <;> simp [scoped_ptr.destruct, countOne]

theorem countArr_destruct (r : Ref) (w : scoped_array) :
    countArr r w.destruct = if w.array_ = some r then 1 else 0 := by
  obtain ⟨p⟩ := w
  cases p <;> simp [scoped_array.destruct, countArr]

/-! ### Claims -/

/-- **C1.** Over any whole lifetime of operations on a pair of wrappers
(arbitrary construction, then any sequence of reset/release/swap, then
destruction of both), each deallocation primitive is invoked at most once per
adoption of a reference: the number of `delete r` (resp. `delete[] r`) events
of the whole trace, final destructors included, is at most the number of times
`r` was adopted (at construction or by a `reset` that actually installed it).
In particular destructing an empty wrapper performs no deallocation and
destructing a non-empty, never-released wrapper deallocates its referent
exactly once. -/
theorem dealloc_at_most_once_per_adoption :
    (∀ (s : PtrPair) (ops : List PtrOp) (r : Ref),
      countOne r ((runPtr s ops).2
          ++ scoped_ptr.destruct (runPtr s ops).1.w1
          ++ scoped_ptr.destruct (runPtr s ops).1.w2)
        ≤ ownPtr r s + adoptPtr r s ops)
  ∧ scoped_ptr.destruct (scoped_ptr.construct none) = []
  ∧ (∀ r : Ref,
      scoped_ptr.destruct (scoped_ptr.construct (some r)) = [Dealloc.deleteOne r])
  ∧ (∀ (s : ArrPair) (ops : List ArrOp) (r : Ref),
      countArr r ((runArr s ops).2
          ++ scoped_array.destruct (runArr s ops).1.w1
          ++ scoped_array.destruct (runArr s ops).1.w2)
        ≤ ownArr r s + adoptArr r s ops)
  ∧ scoped_array.destruct (scoped_array.construct none) = []
  ∧ (∀ r : Ref,
      scoped_array.destruct (scoped_array.construct (some r)) = [Dealloc.deleteArray r]) := by
  refine ⟨?_, rfl, fun r => rfl, ?_, rfl, fun r => rfl⟩
  · intro s ops r
    have h := runPtr_count r ops s
    rw [countOne_append, countOne_append, countOne_destruct, countOne_destruct]
    unfold ownPtr at h ⊢
    split_ifs at h ⊢ <;> omega
  · intro s ops r
    have h := runArr_count r ops s
    rw [countArr_append, countArr_append, countArr_destruct, countArr_destruct]
    unfold ownArr at h ⊢
    split_ifs at h ⊢ <;> omega

/-- **C2.** `reset(p)` with `p` distinct from the current reference deallocates
the previously owned reference exactly once (zero times if it was none) and
leaves `get() == p`, for both `scoped_ptr` and `scoped_array`. -/
theorem reset_distinct_dealloc_once (s : scoped_ptr) (t : scoped_array)
    (p q : Ptr) (r1 r2 : Ref) (hp : p ≠ s.get) (hq : q ≠ t.get) :
    (s.reset p).1.get = p
  ∧ countOne r1 (s.reset p).2 = (if s.get = some r1 then 1 else 0)
  ∧ (t.reset q).1.get = q
  ∧ countArr r2 (t.reset q).2 = (if t.get = some r2 then 1 else 0) := by
  have hp' : p ≠ s.ptr_ := hp
  have hq' : q ≠ t.array_ := hq
  refine ⟨?_, ?_, ?_, ?_⟩
  · simp [scoped_ptr.reset, scoped_ptr.get, hp']
  · simp [scoped_ptr.reset, scoped_ptr.get, hp', countOne_destruct]
  · simp [scoped_array.reset, scoped_array.get, hq']
  · simp [scoped_array.reset, scoped_array.get, hq', countArr_destruct]

theorem reset_distinct_dealloc_once_witness :
    ((scoped_ptr.construct (some 0)).reset (some 1)).1.get = some 1
  ∧ countOne 0 ((scoped_ptr.construct (some 0)).reset (some 1)).2
      = (if (scoped_ptr.construct (some 0)).get = some 0 then 1 else 0)
  ∧ ((scoped_array.construct (some 2)).reset (some 3)).1.get = some 3
  ∧ countArr 2 ((scoped_array.construct (some 2)).reset (some 3)).2
      = (if (scoped_array.construct (some 2)).get = some 2 then 1 else 0) :=
  reset_distinct_dealloc_once (scoped_ptr.construct (some 0))
    (scoped_array.construct (some 2)) (some 1) (some 3) 0 2
    (by decide) (by decide)

/-- **C3.** Self-reset (`reset` with the wrapper's own current reference, the
none case included) performs zero deallocations and leaves the wrapper
unchanged, for both `scoped_ptr` and `scoped_array`. -/
theorem self_reset_noop (s : scoped_ptr) (t : scoped_array) :
    s.reset s.get = (s, []) ∧ t.reset t.get = (t, []) := by
  constructor
  · simp [scoped_ptr.reset, scoped_ptr.get]
  · simp [scoped_array.reset, scoped_array.get]

/-- **C4.** `release()` returns the prior `get()` value, performs no
deallocation (its body contains no `delete`, and the release steps of the
trace semantics emit no event), leaves `get() == none`, and a subsequent
destruction performs no deallocation, for both wrappers. -/
theorem release_gives_up_ownership (s : scoped_ptr) (t : scoped_array)
    (b : PtrPair) (c : ArrPair) :
    (s.release).1 = s.get
  ∧ (s.release).2.get = none
  ∧ (s.release).2.destruct = []
  ∧ (stepPtr b PtrOp.release1).2 = [] ∧ (stepPtr b PtrOp.release2).2 = []
  ∧ (t.release).1 = t.get
  ∧ (t.release).2.get = none
  ∧ (t.release).2.destruct = []
  ∧ (stepArr c ArrOp.release1).2 = [] ∧ (stepArr c ArrOp.release2).2 = [] := by
  refine ⟨rfl, rfl, rfl, rfl, rfl, rfl, rfl, rfl, rfl, rfl⟩

/-- **C5, counterexample.** The null/negative-index checks are ordinary
`assert`s from `<assert.h>`, so with `NDEBUG` defined (the usual optimized
build) they are elided: dereferencing an empty `scoped_ptr`, indexing an empty
`scoped_array`, and indexing with a negative index then do NOT terminate with
a contract failure but proceed into undefined behavior.  This refutes the
claim that the check is always performed and not elided in optimized
builds. -/
theorem access_check_elided_under_ndebug :
    scoped_ptr.opStar true (scoped_ptr.construct none) = AccessOutcome.undefined
  ∧ scoped_ptr.opStar true (scoped_ptr.construct none) ≠ AccessOutcome.assertionFailure
  ∧ scoped_ptr.opArrow true (scoped_ptr.construct none) ≠ AccessOutcome.assertionFailure
  ∧ scoped_array.opIndex true (scoped_array.construct none) 0
      ≠ IndexOutcome.assertionFailure
  ∧ scoped_array.opIndex true (scoped_array.construct (some 0)) (-1)
      = IndexOutcome.undefined := by
  refine ⟨rfl, ?_, ?_, ?_, rfl⟩ <;> decide

/-- **C5, amended.** When assertions are enabled (`NDEBUG` not defined),
dereferencing or member-accessing an empty `scoped_ptr`, and indexing an empty
`scoped_array` or indexing with a negative index, terminate execution with a
fatal assertion failure; the check is a standard `assert`, hence elided when
`NDEBUG` is defined. -/
theorem access_empty_asserts_when_enabled (s : scoped_ptr) (t : scoped_array)
    (i : Int) (hs : s.get = none) (ht : t.get = none ∨ i < 0) :
    scoped_ptr.opStar false s = AccessOutcome.assertionFailure
  ∧ scoped_ptr.opArrow false s = AccessOutcome.assertionFailure
  ∧ scoped_array.opIndex false t i = IndexOutcome.assertionFailure := by
  have hs' : s.ptr_ = none := hs
  refine ⟨by simp [scoped_ptr.opStar, hs'], by simp [scoped_ptr.opArrow, hs'], ?_⟩
  rcases ht with h | h
  · have ht' : t.array_ = none := h
    by_cases hi : (0 : Int) ≤ i
    · simp [scoped_array.opIndex, ht', hi]
    · simp [scoped_array.opIndex, hi]
  · have hi : ¬ ((0 : Int) ≤ i) := by omega
    simp [scoped_array.opIndex, hi]

theorem access_empty_asserts_when_enabled_witness :
    scoped_ptr.opStar false (scoped_ptr.construct none) = AccessOutcome.assertionFailure
  ∧ scoped_ptr.opArrow false (scoped_ptr.construct none) = AccessOutcome.assertionFailure
  ∧ scoped_array.opIndex false (scoped_array.construct none) 0
      = IndexOutcome.assertionFailure :=
  access_empty_asserts_when_enabled (scoped_ptr.construct none)
    (scoped_array.construct none) 0 rfl (Or.inl rfl)

/-- **C6.** `scoped_array`'s `destruct` and `reset` deallocate with the
array-deallocation primitive `delete[]`: destroying a non-empty,
never-released `scoped_array` holding `r` records exactly one `delete[] r`
event and zero `delete` (single-object) events, and a `reset` to a different
pointer likewise emits only the `delete[] r` event. -/
theorem scoped_array_uses_array_delete (t : scoped_array) (r r2 : Ref) (p : Ptr)
    (h : t.get = some r) (hp : p ≠ t.get) :
    t.destruct = [Dealloc.deleteArray r]
  ∧ countArr r t.destruct = 1
  ∧ countOne r2 t.destruct = 0
  ∧ (t.reset p).2 = [Dealloc.deleteArray r]
  ∧ countOne r2 (t.reset p).2 = 0 := by
  obtain ⟨a⟩ := t
  have ha : a = some r := h
  subst ha
  have hp' : p ≠ some r := hp
  refine ⟨rfl, by simp [scoped_array.destruct, countArr], ?_, ?_, ?_⟩
  · simp [scoped_array.destruct, countOne]
  · simp [scoped_array.reset, scoped_array.destruct, hp']
  · simp [scoped_array.reset, scoped_array.destruct, countOne, hp']

theorem scoped_array_uses_array_delete_witness :
    (scoped_array.construct (some 5)).destruct = [Dealloc.deleteArray 5]
  ∧ countArr 5 (scoped_array.construct (some 5)).destruct = 1
  ∧ countOne 5 (scoped_array.construct (some 5)).destruct = 0
  ∧ ((scoped_array.construct (some 5)).reset none).2 = [Dealloc.deleteArray 5]
  ∧ countOne 5 ((scoped_array.construct (some 5)).reset none).2 = 0 :=
  scoped_array_uses_array_delete (scoped_array.construct (some 5)) 5 5 none
    rfl (by decide)

/-- **C7.** `swap` exchanges the owned references of two wrappers of the same
element type — afterwards the first holds the second's prior reference and
vice versa — and the swap step of the trace semantics emits zero deallocation
events (the wrappers never allocate at all). -/
theorem swap_exchanges_no_dealloc (a b : scoped_ptr) (c d : scoped_array) :
    (scoped_ptr.swap a b).1.get = b.get
  ∧ (scoped_ptr.swap a b).2.get = a.get
  ∧ (stepPtr ⟨a, b⟩ PtrOp.swap12).2 = []
  ∧ (scoped_array.swap c d).1.get = d.get
  ∧ (scoped_array.swap c d).2.get = c.get
  ∧ (stepArr ⟨c, d⟩ ArrOp.swap12).2 = [] := by
  refine ⟨rfl, rfl, rfl, rfl, rfl, rfl⟩

/-- **C8.** `operator==` against a raw pointer returns true exactly when the
owned reference is identical to it, and `operator!=` is its negation; both are
embedded as pure functions of the wrapper state (their bodies only read the
pointer field), so neither modifies the wrapper. -/
theorem raw_pointer_comparison_is_identity (s : scoped_ptr) (t : scoped_array)
    (p q : Ptr) :
    (s.opEq p = true ↔ s.get = p)
  ∧ s.opNe p = !(s.opEq p)
  ∧ (s.opNe p = true ↔ ¬ s.get = p)
  ∧ (t.opEq q = true ↔ t.get = q)
  ∧ t.opNe q = !(t.opEq q)
  ∧ (t.opNe q = true ↔ ¬ t.get = q) := by
  refine ⟨?_, ?_, ?_, ?_, ?_, ?_⟩ <;>
    simp [scoped_ptr.opEq, scoped_ptr.opNe, scoped_ptr.get,
      scoped_array.opEq, scoped_array.opNe, scoped_array.get]

/-- **C10.** Self-swap leaves a wrapper unchanged and emits no deallocation
event, and performing the same swap twice restores both wrappers to their
original states (swap is self-inverse), for both wrapper kinds. -/
theorem swap_self_inverse (a b : scoped_ptr) (c d : scoped_array) :
    scoped_ptr.swap a a = (a, a)
  ∧ (stepPtr ⟨a, a⟩ PtrOp.swap12).2 = []
  ∧ scoped_ptr.swap (scoped_ptr.swap a b).1 (scoped_ptr.swap a b).2 = (a, b)
  ∧ scoped_array.swap c c = (c, c)
  ∧ (stepArr ⟨c, c⟩ ArrOp.swap12).2 = []
  ∧ scoped_array.swap (scoped_array.swap c d).1 (scoped_array.swap c d).2 = (c, d) := by
  refine ⟨rfl, rfl, rfl, rfl, rfl, rfl⟩
